import Mathlib

/-
Verification of the validation and temporal-sequence-analysis engine of the
sanitycheck repository (src/app.py) against its natural-language specification.

The Python code is shallowly embedded: Python strings are lists of characters,
pandas cell values are a closed tagged union (NaN/None, number, Timestamp,
text), timestamps are rational numbers (seconds, or minutes for the gap
analyzer), and every function of the source that a claim touches is translated
into an executable Lean definition mirroring the source's control flow.
-/

set_option maxHeartbeats 1000000

namespace SanityCheck

/-- Python strings are modelled as lists of characters. -/
abbrev PyStr := List Char

/-- Model of Python str.strip(): drop leading and trailing whitespace. -/
def pyStrip (s : PyStr) : PyStr :=
  ((s.dropWhile Char.isWhitespace).reverse.dropWhile Char.isWhitespace).reverse

/-- Model of Python int() truncation of a rational toward zero. -/
def pyTrunc (q : ℚ) : ℤ :=
  if q < 0 then ⌈q⌉ else ⌊q⌋

/- ## ColumnAddressing (app.py 334-343 / 1152-1161 and 1143-1149) -/

/-- Digit loop of get_excel_column_name (app.py 1152-1161): repeated divmod by
26; after emitting a digit the quotient is decremented by one, which is the
bijective base-26 adjustment.  Digits are collected most significant first. -/
def excelColDigits (i : ℕ) : List ℕ :=
  if i < 26 then [i]
  else excelColDigits (i / 26 - 1) ++ [i % 26]
termination_by i
decreasing_by
  have hdiv : i / 26 < i := Nat.div_lt_self (by omega) (by omega)
  omega

/-- get_excel_column_name (app.py 1152-1161): 0-based column index to Excel
column label, each digit rendered as chr(65 + remainder). -/
def get_excel_column_name (i : ℕ) : PyStr :=
  (excelColDigits i).map (fun d => Char.ofNat (65 + d))

/-- column_letter_to_index (app.py 1143-1149): upper-case the label, then sum
(ord(char) - ord('A') + 1) * 26 ** position over the reversed string and
subtract 1.  The source performs no validation and never raises on a string. -/
def column_letter_to_index (s : PyStr) : ℤ :=
  ((s.map Char.toUpper).reverse.enum.foldl
    (fun acc p => acc + ((p.2.toNat : ℤ) - 65 + 1) * 26 ^ p.1) 0) - 1

/- ## RowCountValidator (app.py 346-466) -/

/-- is_leap_year (app.py 357-358). -/
def is_leap_year (y : ℕ) : Bool :=
  (y % 4 == 0 && y % 100 != 0) || y % 400 == 0

/-- get_days_in_month (app.py 360-376): the month table, February depending on
the leap year, and the dict .get default of 30 for an unknown month. -/
def get_days_in_month (m y : ℕ) : ℕ :=
  match m with
  | 1 => 31
  | 2 => if is_leap_year y then 29 else 28
  | 3 => 31
  | 4 => 30
  | 5 => 31
  | 6 => 30
  | 7 => 31
  | 8 => 31
  | 9 => 30
  | 10 => 31
  | 11 => 30
  | 12 => 31
  | _ => 30

/-- The anchor cell A7 of a data sheet as validate_row_counts sees it after
pandas loading and pd.to_datetime: empty (NaN), a parsed date (only month and
year are consumed), or a value to_datetime cannot parse. -/
inductive AnchorCell
  | empty
  | date (month year : ℕ)
  | unparseable

/-- Expected-row computation of validate_row_counts (app.py 395-433): when the
sheet has at least 7 rows and A7 parses as a date, the result is
month * 60 * 24 * days_in_month + 7; otherwise there is no expected count
(rendered as the Unknown status downstream). -/
def expected_row_count (nRows : ℕ) (anchor : AnchorCell) : Option ℕ :=
  if nRows < 7 then none
  else
    match anchor with
    | .empty => none
    | .unparseable => none
    | .date m y => some (m * 60 * 24 * get_days_in_month m y + 7)

/- ## Cell values -/

/-- A loaded cell value as the validation passes see it: NaN/None, a number
(int/float/np.number), a structured date-time (pandas Timestamp or datetime,
modelled as rational seconds on a proleptic-Gregorian axis), or text. -/
inductive PyVal
  | null
  | num (q : ℚ)
  | dtObj (v : ℚ)
  | text (s : PyStr)
deriving DecidableEq

/-- pd.isna test on a value. -/
def isNullVal : PyVal → Bool
  | .null => true
  | _ => false

/-- isinstance(value, (int, float, np.number)) / numeric-dtype test. -/
def isNumericType : PyVal → Bool
  | .num _ => true
  | _ => false

/- ## FormatDetector: the strptime model (app.py 613-630 pattern lists) -/

/-- Field order of a three-field numeric date pattern. -/
inductive DateOrder
  | dmy
  | ymd
  | mdy
deriving DecidableEq

/-- One of the nine date patterns: a separator and a field order
(for example sep '.' with dmy is the source's '%d.%m.%Y'). -/
structure DateFmt where
  sep : Char
  dord : DateOrder
deriving DecidableEq

/-- date_formats_to_try (app.py 613-623) in the declared order:
d.m.Y, d/m/Y, d-m-Y, Y.m.d, Y/m/d, Y-m-d, m.d.Y, m/d/Y, m-d-Y. -/
def date_formats_to_try : List DateFmt :=
  [⟨'.', .dmy⟩, ⟨'/', .dmy⟩, ⟨'-', .dmy⟩,
   ⟨'.', .ymd⟩, ⟨'/', .ymd⟩, ⟨'-', .ymd⟩,
   ⟨'.', .mdy⟩, ⟨'/', .mdy⟩, ⟨'-', .mdy⟩]

/-- The four time patterns of time_formats_to_try (app.py 625-630):
%H:%M:%S, %H:%M, %I:%M:%S %p, %I:%M %p, in that order. -/
inductive TimeFmt
  | hms
  | hm
  | imsp
  | imp
deriving DecidableEq

def time_formats_to_try : List TimeFmt := [.hms, .hm, .imsp, .imp]

/-- Decimal value of a digit string. -/
def digitsToNat (s : PyStr) : ℕ :=
  s.foldl (fun a c => a * 10 + (c.toNat - 48)) 0

/-- strptime %d: one or two digits with value 1-31 (CPython's day regex). -/
def parseDayField (s : PyStr) : Option ℕ :=
  if s.all Char.isDigit ∧ (s.length = 1 ∨ s.length = 2) then
    let v := digitsToNat s
    if 1 ≤ v ∧ v ≤ 31 then some v else none
  else none

/-- strptime %m: one or two digits with value 1-12. -/
def parseMonthField (s : PyStr) : Option ℕ :=
  if s.all Char.isDigit ∧ (s.length = 1 ∨ s.length = 2) then
    let v := digitsToNat s
    if 1 ≤ v ∧ v ≤ 12 then some v else none
  else none

/-- strptime %Y: exactly four digits; the datetime constructor then requires
year at least MINYEAR = 1. -/
def parseYearField (s : PyStr) : Option ℕ :=
  if s.all Char.isDigit ∧ s.length = 4 then
    let v := digitsToNat s
    if 1 ≤ v then some v else none
  else none

/-- strptime %H: one or two digits with value 0-23. -/
def parseHour24Field (s : PyStr) : Option ℕ :=
  if s.all Char.isDigit ∧ (s.length = 1 ∨ s.length = 2) then
    let v := digitsToNat s
    if v ≤ 23 then some v else none
  else none

/-- strptime %I: one or two digits with value 1-12. -/
def parseHour12Field (s : PyStr) : Option ℕ :=
  if s.all Char.isDigit ∧ (s.length = 1 ∨ s.length = 2) then
    let v := digitsToNat s
    if 1 ≤ v ∧ v ≤ 12 then some v else none
  else none

/-- strptime %M: one or two digits with value 0-59. -/
def parseMinuteField (s : PyStr) : Option ℕ :=
  if s.all Char.isDigit ∧ (s.length = 1 ∨ s.length = 2) then
    let v := digitsToNat s
    if v ≤ 59 then some v else none
  else none

/-- strptime %S followed by the datetime constructor: one or two digits with
value 0-59 (the regex also admits 60 and 61, but datetime then rejects them,
so the net effect is failure, as modelled here). -/
def parseSecondField (s : PyStr) : Option ℕ :=
  if s.all Char.isDigit ∧ (s.length = 1 ∨ s.length = 2) then
    let v := digitsToNat s
    if v ≤ 59 then some v else none
  else none

/-- strptime %p: AM or PM, case-insensitively; true means PM. -/
def parseAmPmField (s : PyStr) : Option Bool :=
  let l := s.map Char.toLower
  if l = "am".data then some false
  else if l = "pm".data then some true
  else none

/-- Day-validity check performed by the datetime constructor after strptime
extracts the fields. -/
def validYMD (y m d : ℕ) : Bool :=
  1 ≤ y && 1 ≤ m && m ≤ 12 && 1 ≤ d && d ≤ get_days_in_month m y

/-- Model of datetime.strptime(s, fmt) for the nine numeric date patterns:
the string must consist of exactly three separator-delimited fields (the
separator cannot occur inside a digit field, so splitting on it is the regex's
behaviour), each field must match its strptime regex, and the assembled date
must be a valid calendar date.  Returns (year, month, day). -/
def parseDateFmt (f : DateFmt) (s : PyStr) : Option (ℕ × ℕ × ℕ) :=
  match s.splitOn f.sep with
  | [a, b, c] =>
    let ymd? : Option (ℕ × ℕ × ℕ) :=
      match f.dord with
      | .dmy =>
        (parseYearField c).bind fun y =>
          (parseMonthField b).bind fun m =>
            (parseDayField a).map fun d => (y, m, d)
      | .ymd =>
        (parseYearField a).bind fun y =>
          (parseMonthField b).bind fun m =>
            (parseDayField c).map fun d => (y, m, d)
      | .mdy =>
        (parseYearField c).bind fun y =>
          (parseMonthField a).bind fun m =>
            (parseDayField b).map fun d => (y, m, d)
    ymd?.bind fun p =>
      if validYMD p.1 p.2.1 p.2.2 then some p else none
  | _ => none

/-- Whitespace split dropping empty runs: the behaviour of the \s+ that
strptime substitutes for a blank in the format string. -/
def splitWS (s : PyStr) : List PyStr :=
  (s.splitOnP Char.isWhitespace).filter (· ≠ [])

/-- Conversion of a 12-hour reading to the hour of the day (%I with %p):
12 AM is hour 0 and 12 PM is hour 12. -/
def hour12To24 (i : ℕ) (pm : Bool) : ℕ :=
  if pm then (if i = 12 then 12 else i + 12)
  else (if i = 12 then 0 else i)

/-- Model of datetime.strptime(s, fmt) for the four time patterns.  Returns
the second within the day. -/
def parseTimeFmt (f : TimeFmt) (s : PyStr) : Option ℕ :=
  match f with
  | .hms =>
    match s.splitOn ':' with
    | [a, b, c] =>
      (parseHour24Field a).bind fun h =>
        (parseMinuteField b).bind fun m =>
          (parseSecondField c).map fun sec => h * 3600 + m * 60 + sec
    | _ => none
  | .hm =>
    match s.splitOn ':' with
    | [a, b] =>
      (parseHour24Field a).bind fun h =>
        (parseMinuteField b).map fun m => h * 3600 + m * 60
    | _ => none
  | .imsp =>
    match splitWS s with
    | [t, p] =>
      (parseAmPmField p).bind fun pm =>
        match t.splitOn ':' with
        | [a, b, c] =>
          (parseHour12Field a).bind fun i =>
            (parseMinuteField b).bind fun m =>
              (parseSecondField c).map fun sec =>
                hour12To24 i pm * 3600 + m * 60 + sec
        | _ => none
    | _ => none
  | .imp =>
    match splitWS s with
    | [t, p] =>
      (parseAmPmField p).bind fun pm =>
        match t.splitOn ':' with
        | [a, b] =>
          (parseHour12Field a).bind fun i =>
            (parseMinuteField b).map fun m =>
              hour12To24 i pm * 3600 + m * 60
        | _ => none
    | _ => none

/- ## Instants (datetime values as rationals) -/

/-- Days before the first of January of year y in the proleptic Gregorian
calendar (datetime.toordinal convention: 1-01-01 is day 1). -/
def daysBeforeYear (y : ℕ) : ℕ :=
  365 * (y - 1) + (y - 1) / 4 - (y - 1) / 100 + (y - 1) / 400

/-- Days of year y that precede the first of month m. -/
def daysBeforeMonth (y m : ℕ) : ℕ :=
  ((List.range (m - 1)).map (fun k => get_days_in_month (k + 1) y)).sum

/-- datetime.toordinal of (y, m, d). -/
def toOrdinal (y m d : ℕ) : ℕ :=
  daysBeforeYear y + daysBeforeMonth y m + d

/-- The instant (seconds) of a date parsed by a date pattern: midnight of the
parsed day. -/
def dateInstant (p : ℕ × ℕ × ℕ) : ℚ :=
  (toOrdinal p.1 p.2.1 p.2.2 : ℚ) * 86400

/-- The instant (seconds) of a time parsed by a time pattern: strptime fills
the unspecified date with 1900-01-01. -/
def timeInstant (sec : ℕ) : ℚ :=
  (toOrdinal 1900 1 1 : ℚ) * 86400 + sec

/-- Midnight of the day an instant falls in (the .date() component). -/
def dateFloor (v : ℚ) : ℚ := 86400 * ⌊v / 86400⌋

/-- Seconds since midnight of an instant (the .time() component). -/
def timeOfDay (v : ℚ) : ℚ := v - dateFloor v

/-- datetime.combine(d.date(), t.time()). -/
def combineDT (d t : ℚ) : ℚ := dateFloor d + timeOfDay t

/- ## CellClassifier: Python float() and the per-cell branch (app.py 893-951) -/

/-- CPython digitpart: digit (underscore? digit)*; underscores are only
permitted between digits. -/
def digitGroup : PyStr → Bool
  | [] => false
  | c :: rest => c.isDigit && digitGroupRest rest
where
  digitGroupRest : PyStr → Bool
  | [] => true
  | '_' :: [] => false
  | '_' :: c :: rest => c.isDigit && digitGroupRest rest
  | c :: rest => c.isDigit && digitGroupRest rest

/-- Mantissa of a Python float literal: digitpart, digitpart '.', digitpart
'.' digitpart, or '.' digitpart. -/
def mantissaOK (s : PyStr) : Bool :=
  match s.splitOn '.' with
  | [a] => digitGroup a
  | [a, b] => (digitGroup a && (b = [] || digitGroup b)) || (a = [] && digitGroup b)
  | _ => false

/-- Exponent of a Python float literal: an optional sign then a digitpart. -/
def expGroup : PyStr → Bool
  | '+' :: r => digitGroup r
  | '-' :: r => digitGroup r
  | r => digitGroup r

/-- Unsigned body of a Python float literal: mantissa with an optional
e/E exponent. -/
def pyFloatBody (s : PyStr) : Bool :=
  match s.splitOnP (fun c => c = 'e' ∨ c = 'E') with
  | [m] => mantissaOK m
  | [m, ex] => mantissaOK m && expGroup ex
  | _ => false

/-- Model of whether Python float(s) succeeds on an already-stripped string:
an optional sign, then inf / infinity / nan (case-insensitively) or a float
literal body. -/
def pyFloatParses (s : PyStr) : Bool :=
  let body := match s with
    | '+' :: r => r
    | '-' :: r => r
    | r => r
  let low := body.map Char.toLower
  low = "inf".data || low = "infinity".data || low = "nan".data || pyFloatBody body

/-- The tag the numeric-region pass assigns to a cell; each non-Numeric tag
corresponds to one issue category. -/
inductive CellTag
  | nullTag
  | emptyTag
  | numericTag
  | alphaTag
  | specialTag
  | otherTag
deriving DecidableEq

/-- The character set allowed by the special-character check (app.py 936). -/
def allowed_chars : List Char := "0123456789.-".data

/-- Per-cell branch of the numeric-region pass (app.py 899-948).  A NaN value
is a null issue; otherwise the value is stringified and stripped and an empty
string is an empty-cell issue (str of a number or a Timestamp is never empty,
so these reach the later branches); a value of numeric runtime type passes;
a string float() accepts passes; a string with an alphabetic character is an
alphabetical issue; a string with characters outside 0-9 . - is a
special-character issue (str of a Timestamp is 'YYYY-MM-DD HH:MM:SS', which
float() rejects, which has no alphabetic character, and which contains ':'
and ' ', so a Timestamp lands here); anything else is a numeric issue. -/
def classifyCell : PyVal → CellTag
  | .null => .nullTag
  | .num _ => .numericTag
  | .dtObj _ => .specialTag
  | .text s =>
    let t := pyStrip s
    if t = [] then .emptyTag
    else if pyFloatParses t then .numericTag
    else if t.any Char.isAlpha then .alphaTag
    else if ¬ (t.all (fun c => c ∈ allowed_chars)) then .specialTag
    else .otherTag

/-- Modelled from the spec (CellClassifier, section 4.2): the seven-clause
first-match-wins cascade over the raw typed value and the already stringified
and trimmed text.  Kept separate from classifyCell so the two can be
compared. -/
def specClassify (raw : PyVal) (t : PyStr) : CellTag :=
  if isNullVal raw then .nullTag
  else if t = [] then .emptyTag
  else if isNumericType raw then .numericTag
  else if pyFloatParses t then .numericTag
  else if t.any Char.isAlpha then .alphaTag
  else if ¬ (t.all (fun c => c ∈ allowed_chars)) then .specialTag
  else .otherTag

/- ## FormatDetector scan (app.py 632-679) -/

/-- Result of date-format detection: a locked pattern, or the
'datetime_object' sentinel for a column whose first classifiable cell is
already a structured date-time. -/
inductive DetectedDate
  | fmt (f : DateFmt)
  | native
deriving DecidableEq

/-- What the detection loop concludes from a single cell: nothing for a NaN
cell or a cell whose text matches no pattern (the loop moves on), the sentinel
for a structured value, or the first matching pattern for text.  A numeric
cell is stringified by the source; str of a number contains no date separator
triple, so it matches no pattern and the loop moves on. -/
def dateCellClass (v : PyVal) : Option DetectedDate :=
  match v with
  | .null => none
  | .num _ => none
  | .dtObj _ => some .native
  | .text s =>
    (date_formats_to_try.find? (fun f => (parseDateFmt f (pyStrip s)).isSome)).map .fmt

/-- Date-format detection loop (app.py 632-655): scan the column
top-to-bottom and stop at the first cell that yields a classification. -/
def detect_date_format : List PyVal → Option DetectedDate
  | [] => none
  | v :: rest =>
    match dateCellClass v with
    | some r => some r
    | none => detect_date_format rest

/-- Result of time-format detection. -/
inductive DetectedTime
  | fmt (f : TimeFmt)
  | native
deriving DecidableEq

/-- Single-cell conclusion of the time-detection loop (app.py 657-679);
str of a number contains no colon, so it matches no time pattern. -/
def timeCellClass (v : PyVal) : Option DetectedTime :=
  match v with
  | .null => none
  | .num _ => none
  | .dtObj _ => some .native
  | .text s =>
    (time_formats_to_try.find? (fun f => (parseTimeFmt f (pyStrip s)).isSome)).map .fmt

/-- Time-format detection loop (app.py 657-679). -/
def detect_time_format : List PyVal → Option DetectedTime
  | [] => none
  | v :: rest =>
    match timeCellClass v with
    | some r => some r
    | none => detect_time_format rest

/- ## DateTimeValidator and the numeric pass (validate_data, app.py 496-951) -/

/-- Which of the two datetime columns an issue refers to. -/
inductive DTCol
  | dateCol
  | timeCol
deriving DecidableEq

/-- An entry of datetime_issues: a null date or time value (app.py 707-722). -/
structure DTIssue where
  row : ℕ
  col : DTCol
deriving DecidableEq

/-- An entry of datetime_format_issues (app.py 736-738, 754-756, 773-775,
791-793). -/
structure FmtIssue where
  row : ℕ
  col : DTCol
deriving DecidableEq

/-- An entry of datetime_sequence_issues (app.py 861-863): the two row
numbers, the expected next instant and the actual one. -/
structure SeqIssue where
  row1 : ℕ
  row2 : ℕ
  expected : ℚ
  actual : ℚ
deriving DecidableEq

/-- Human label of the detected interval (app.py 830-842); the numeric labels
carry the number shown (int() truncation for minutes, hours as a rational
rendered with two decimals downstream). -/
inductive IntervalLabel
  | oneMinute
  | oneHour
  | oneDay
  | minutesL (n : ℤ)
  | hoursL (q : ℚ)
deriving DecidableEq

/-- Per-sheet entry of validation_results (app.py 574-590), restricted to the
fields the validation logic writes. -/
structure SheetResult where
  datetime_issues : List DTIssue
  datetime_format_issues : List FmtIssue
  datetime_sequence_issues : List SeqIssue
  numeric_issues : List (ℕ × ℕ)
  null_issues : List (ℕ × ℕ)
  special_char_issues : List (ℕ × ℕ)
  alphabetical_issues : List (ℕ × ℕ)
  empty_cell_issues : List (ℕ × ℕ)
  is_valid : Bool
  detected_date_format : Option DetectedDate
  detected_time_format : Option DetectedTime
  detected_interval : Option IntervalLabel
deriving DecidableEq

/-- The blank per-sheet result (app.py 574-590). -/
def initResult : SheetResult :=
  ⟨[], [], [], [], [], [], [], [], true, none, none, none⟩

/-- Outcome of parsing one side (date or time) of a row. -/
inductive ParseOutcome
  | ok (v : ℚ)
  | fail
  | skip
deriving DecidableEq

/-- Date side of a row (app.py 725-759).  A structured value is used as is; a
string is parsed against the locked format, or against every format in order
when none was detected; under the 'datetime_object' sentinel a string takes
neither branch and parsed_date silently stays None (skip).  A numeric cell is
stringified by the source and its string can match no pattern, so it behaves
like unparseable text. -/
def parseDateSide (det : Option DetectedDate) (v : PyVal) : ParseOutcome :=
  match v with
  | .dtObj x => .ok x
  | .null => .skip
  | .num _ =>
    match det with
    | some .native => .skip
    | _ => .fail
  | .text s =>
    let str := pyStrip s
    match det with
    | some (.fmt f) =>
      match parseDateFmt f str with
      | some ymd => .ok (dateInstant ymd)
      | none => .fail
    | some .native => .skip
    | none =>
      match date_formats_to_try.findSome? (fun f => (parseDateFmt f str).map dateInstant) with
      | some x => .ok x
      | none => .fail

/-- Time side of a row (app.py 762-796), mirroring parseDateSide. -/
def parseTimeSide (det : Option DetectedTime) (v : PyVal) : ParseOutcome :=
  match v with
  | .dtObj x => .ok x
  | .null => .skip
  | .num _ =>
    match det with
    | some .native => .skip
    | _ => .fail
  | .text s =>
    let str := pyStrip s
    match det with
    | some (.fmt f) =>
      match parseTimeFmt f str with
      | some sec => .ok (timeInstant sec)
      | none => .fail
    | some .native => .skip
    | none =>
      match time_formats_to_try.findSome? (fun f => (parseTimeFmt f str).map timeInstant) with
      | some x => .ok x
      | none => .fail

/-- One iteration of the per-row datetime loop (app.py 701-812): null checks
first (each appends a datetime issue and skips the row), then the date parse
(a failure appends a format issue and skips the row), then the time parse
(likewise), and when both sides produced values the combined instant is
appended; when either side was silently skipped nothing is recorded
(datetime.combine itself cannot fail on the values reaching it). -/
def dtRow (detD : Option DetectedDate) (detT : Option DetectedTime)
    (acc : SheetResult × List (ℕ × ℚ)) (rowNum : ℕ) (dv tv : PyVal) :
    SheetResult × List (ℕ × ℚ) :=
  let (st, combined) := acc
  if isNullVal dv then
    ({st with datetime_issues := st.datetime_issues ++ [⟨rowNum, .dateCol⟩],
              is_valid := false}, combined)
  else if isNullVal tv then
    ({st with datetime_issues := st.datetime_issues ++ [⟨rowNum, .timeCol⟩],
              is_valid := false}, combined)
  else
    match parseDateSide detD dv with
    | .fail =>
      ({st with datetime_format_issues := st.datetime_format_issues ++ [⟨rowNum, .dateCol⟩],
                is_valid := false}, combined)
    | dres =>
      match parseTimeSide detT tv with
      | .fail =>
        ({st with datetime_format_issues := st.datetime_format_issues ++ [⟨rowNum, .timeCol⟩],
                  is_valid := false}, combined)
      | tres =>
        match dres, tres with
        | .ok d, .ok t => (st, combined ++ [(rowNum, combineDT d t)])
        | _, _ => (st, combined)

/-- Consecutive deltas of a list (dt2 - dt1 for each adjacent pair). -/
def deltasOf (l : List ℚ) : List ℚ :=
  (l.zip l.tail).map (fun p => p.2 - p.1)

/-- Mode selection as Counter(...).most_common(1)[0][0] (app.py 825-827):
the first element in list order whose multiplicity is maximal. -/
def modeOf (l : List ℚ) : ℚ :=
  l.foldl (fun best x => if l.count x > l.count best then x else best) (l.headD 0)

/-- Interval classification (app.py 830-842). -/
def classifyInterval (m : ℚ) : IntervalLabel :=
  if m = 60 then .oneMinute
  else if m = 3600 then .oneHour
  else if m = 86400 then .oneDay
  else
    let intervalMinutes := m / 60
    if intervalMinutes < 60 then .minutesL (pyTrunc intervalMinutes)
    else .hoursL (m / 3600)

/-- One iteration of the sequence re-walk (app.py 849-865): a consecutive
pair whose delta differs from the expected interval m by more than one second
appends a sequence issue naming the expected next instant dt1 + m and the
actual dt2, and invalidates the sheet. -/
def seqStep (m : ℚ) (st : SheetResult) (p : (ℕ × ℚ) × ℕ × ℚ) : SheetResult :=
  if 1 < |p.2.2 - p.1.2 - m| then
    {st with datetime_sequence_issues :=
               st.datetime_sequence_issues ++ [⟨p.1.1, p.2.1, p.1.2 + m, p.2.2⟩],
             is_valid := false}
  else st

/-- Sequence check (app.py 815-866): with at least two combined instants,
take the mode of the consecutive deltas in seconds as the expected interval,
record its label, and re-walk consecutive pairs appending a sequence issue
whenever the delta differs from the mode by more than one second. -/
def seqCheck (st : SheetResult) (combined : List (ℕ × ℚ)) : SheetResult :=
  if 2 ≤ combined.length then
    (combined.zip combined.tail).foldl
      (seqStep (modeOf (deltasOf (combined.map (·.2)))))
      {st with detected_interval := some (classifyInterval (modeOf (deltasOf (combined.map (·.2)))))}
  else st

/-- A sheet of the data workbook: a column count and the rows
(pandas guarantees every row has exactly cols cells). -/
structure DataSheet where
  cols : ℕ
  rows : List (List PyVal)

/-- Append the issue for a classified numeric-region cell (app.py 899-948):
each non-Numeric tag goes to its category and invalidates the sheet. -/
def recordCellIssue (st : SheetResult) (rc : ℕ × ℕ) : CellTag → SheetResult
  | .nullTag => {st with null_issues := st.null_issues ++ [rc], is_valid := false}
  | .emptyTag => {st with empty_cell_issues := st.empty_cell_issues ++ [rc], is_valid := false}
  | .numericTag => st
  | .alphaTag => {st with alphabetical_issues := st.alphabetical_issues ++ [rc], is_valid := false}
  | .specialTag => {st with special_char_issues := st.special_char_issues ++ [rc], is_valid := false}
  | .otherTag => {st with numeric_issues := st.numeric_issues ++ [rc], is_valid := false}

/-- Numeric-region pass (app.py 871-951): when the sheet extends past the
numeric start row, find the last column with any non-null value over the whole
frame, and when the start column exists validate every column from the start
column through that last column, row by row from the numeric start row,
classifying each cell; row numbers are the original 0-based frame index plus
one. -/
def numericPass (df : DataSheet) (numStartRowIdx numStartColIdx : ℕ)
    (st : SheetResult) : SheetResult :=
  if numStartRowIdx < df.rows.length then
    let lastColWithAny : ℤ :=
      (List.range df.cols).foldl
        (fun acc c =>
          if df.rows.any (fun row => ¬ isNullVal (row.getD c .null)) then (c : ℤ) else acc)
        (-1)
    if numStartColIdx < df.cols then
      let colList := (List.range (lastColWithAny + 1).toNat).drop numStartColIdx
      colList.foldl
        (fun st c =>
          (df.rows.enum.drop numStartRowIdx).foldl
            (fun st p =>
              recordCellIssue st (p.1 + 1, c) (classifyCell (p.2.getD c .null)))
            st)
        st
    else st
  else st

/-- Per-sheet body of validate_data (app.py 572-951): the datetime section
runs when the sheet extends past the datetime start row and both configured
columns exist (detection on the column slices, then the per-row loop, then
the sequence check), and the numeric section follows.  Rows are numbered as
in the source: slice offset plus one. -/
def validate_data_sheet (df : DataSheet) (datetimeStartRow dateColIdx timeColIdx
    numericStartRow numStartColIdx : ℕ) : SheetResult :=
  let dtStartIdx := datetimeStartRow - 1
  let numStartIdx := numericStartRow - 1
  let st1 :=
    if dtStartIdx < df.rows.length ∧ dateColIdx < df.cols ∧ timeColIdx < df.cols then
      let dateData := (df.rows.drop dtStartIdx).map (fun row => row.getD dateColIdx .null)
      let timeData := (df.rows.drop dtStartIdx).map (fun row => row.getD timeColIdx .null)
      let detD := detect_date_format dateData
      let detT := detect_time_format timeData
      let st0 := {initResult with detected_date_format := detD,
                                  detected_time_format := detT}
      let stepped := (dateData.zip timeData).enum.foldl
        (fun acc p => dtRow detD detT acc (dtStartIdx + p.1 + 1) p.2.1 p.2.2)
        (st0, [])
      seqCheck stepped.1 stepped.2
    else initResult
  numericPass df numStartIdx numStartColIdx st1

/- ## SheetComparator: validate_columns_and_cells (app.py 161-331) -/

/-- A cell of the comparison pass: NaN or a stringified value. -/
abbrev CmpCell := Option PyStr

/-- A comparison table: the column count and the rows. -/
structure CmpTable where
  cols : ℕ
  rows : List (List CmpCell)

/-- Well-formedness a pandas frame guarantees: every row has cols cells. -/
def CmpTable.WF (t : CmpTable) : Prop :=
  ∀ r ∈ t.rows, r.length = t.cols

/-- Cell access (df.iloc[r, c]). -/
def cmpCell (t : CmpTable) (r c : ℕ) : CmpCell :=
  (t.rows.getD r []).getD c none

/-- The watermark test (app.py 243-245): the cell is not NaN and its
stringified, stripped value is non-empty. -/
def cellHasData (c : CmpCell) : Bool :=
  match c with
  | none => false
  | some s => pyStrip s ≠ []

/-- str(value).strip() with NaN becoming the empty string (app.py 258-261). -/
def cellStr (c : CmpCell) : PyStr :=
  match c with
  | none => []
  | some s => pyStrip s

/-- last_col_with_data for a row (app.py 240-245): a left-to-right scan over
range(cols) keeping the last index whose template cell has data; -1 when the
row has none. -/
def lastColWithData (t : CmpTable) (r : ℕ) : ℤ :=
  (List.range t.cols).foldl
    (fun acc c => if cellHasData (cmpCell t r c) then (c : ℤ) else acc) (-1)

/-- One recorded cell mismatch (app.py 278-284). -/
structure CellMismatch where
  row : ℕ
  col : ℕ
  templateValue : PyStr
  dataValue : PyStr
deriving DecidableEq

/-- The per-row comparisons (app.py 248-270): when the watermark exists, every
column from 0 through it is compared; the entries carry the stringified
stripped template and data values. -/
def rowChecked (tmpl data : CmpTable) (r : ℕ) : List (ℕ × PyStr × PyStr) :=
  (List.range (lastColWithData tmpl r + 1).toNat).map
    (fun c => (c, cellStr (cmpCell tmpl r c), cellStr (cmpCell data r c)))

/-- Cell-validation body for one sheet (app.py 219-287): the rows to check are
filtered to those existing in both frames, and the whole comparison loop runs
only under the column-count equality test; mismatches are the compared pairs
whose trimmed strings differ.  Returns (columns_match, mismatches). -/
def compare_cells (tmpl data : CmpTable) (rowsToCheck : List ℕ) :
    Bool × List CellMismatch :=
  let columnsMatch : Bool := tmpl.cols == data.cols
  let validRows := rowsToCheck.filter
    (fun r => r < tmpl.rows.length && r < data.rows.length)
  let mismatches :=
    if columnsMatch then
      validRows.flatMap (fun r =>
        (rowChecked tmpl data r).filterMap (fun p =>
          if p.2.1 ≠ p.2.2 then some ⟨r, p.1, p.2.1, p.2.2⟩ else none))
    else []
  (columnsMatch, mismatches)

/- ## GapAnalyzer: find_missing_data (app.py 1164-1433) -/

/-- One recorded gap (app.py 1298-1303): start, end, missing minutes and the
number of missing rows. -/
structure Gap where
  start : ℚ
  stop : ℚ
  missingMinutes : ℚ
  missingRows : ℤ
deriving DecidableEq

/-- The timestamps sorted ascending (app.py 1228); timestamps are rational
minutes on the time axis. -/
def sortedTimes (ts : List ℚ) : List ℚ :=
  ts.insertionSort (· ≤ ·)

/-- Rounding of the detected interval (app.py 1239-1241): when the mode is
within 0.1 of an integer it is replaced by that integer.  Python's round ties
to even, but a tie is at distance 0.5 and never enters the branch, so Mathlib
round agrees wherever the branch is taken. -/
def roundedInterval (m : ℚ) : ℚ :=
  if |m - (round m : ℚ)| < 1 / 10 then (round m : ℚ) else m

/-- The number of missing rows for a pair (app.py 1291):
int(diff / expected_interval) - 1. -/
def gapMissingRows (ei : ℚ) (p : ℚ × ℚ) : ℤ :=
  pyTrunc ((p.2 - p.1) / ei) - 1

/-- The Gap record for an offending pair (app.py 1298-1303). -/
def gapOf (ei : ℚ) (p : ℚ × ℚ) : Gap :=
  ⟨p.1, p.2, (gapMissingRows ei p : ℚ) * ei, gapMissingRows ei p⟩

/-- The reconstructed instants of a gap (app.py 1306-1309): start plus
j * interval for j = 1 .. missing rows. -/
def gapFillers (ei : ℚ) (p : ℚ × ℚ) : List ℚ :=
  (List.range (gapMissingRows ei p).toNat).map (fun (j : ℕ) => p.1 + ((j : ℚ) + 1) * ei)

/-- One iteration of the gap walk (app.py 1281-1309): a consecutive sorted
pair whose delta exceeds the interval by more than 10 percent appends one Gap
and its reconstructed instants. -/
def gapStep (ei : ℚ) (acc : List Gap × List ℚ) (p : ℚ × ℚ) : List Gap × List ℚ :=
  if p.2 - p.1 > ei * (11 / 10) then
    (acc.1 ++ [gapOf ei p], acc.2 ++ gapFillers ei p)
  else acc

/-- Core of find_missing_data (app.py 1211-1309): sort the valid instants,
take the mode of the consecutive deltas in minutes, round it when within 0.1
of an integer, then walk consecutive pairs; a pair whose delta exceeds the
interval by more than 10 percent records one Gap and its reconstructed
instants.  None when there are fewer than two instants (the insufficient-data
outcome). -/
def find_missing_data (ts : List ℚ) : Option (ℚ × List Gap × List ℚ) :=
  let sorted := sortedTimes ts
  let diffs := deltasOf sorted
  if diffs.length ≠ 0 then
    let ei := roundedInterval (modeOf diffs)
    let walked := (sorted.zip sorted.tail).foldl (gapStep ei) ([], [])
    some (ei, walked.1, walked.2)
  else none

/- ## Specification-level companions used in the theorem statements -/

/-- Bijective base-26 value of a digit list (most significant first), used to
relate the two column-addressing directions. -/
def colVal (ds : List ℕ) : ℕ :=
  ds.foldl (fun a d => a * 26 + (d + 1)) 0

/-- The watermark as the spec words it: the greatest column index of the row
whose template cell is non-empty, if any. -/
def specWatermark (t : CmpTable) (r : ℕ) : Option ℕ :=
  ((List.range t.cols).filter (fun c => cellHasData (cmpCell t r c))).max?

/-- The gap list as the spec words it: one Gap per consecutive sorted pair
whose delta exceeds the interval by more than 10 percent. -/
def specGaps (ei : ℚ) (l : List ℚ) : List Gap :=
  ((l.zip l.tail).filter (fun p => p.2 - p.1 > ei * (11 / 10))).map (gapOf ei)

/-- The reconstructed instants as the spec words them, in pair order. -/
def specMissing (ei : ℚ) (l : List ℚ) : List ℚ :=
  ((l.zip l.tail).filter (fun p => p.2 - p.1 > ei * (11 / 10))).flatMap (gapFillers ei)

/-- The sorted observed sequence with each flagged gap's reconstructed
instants spliced in place: the merged-and-sorted sequence of the invariant. -/
def fillSorted (ei : ℚ) : List ℚ → List ℚ
  | [] => []
  | [x] => [x]
  | x :: y :: r =>
    x :: ((if y - x > ei * (11 / 10) then gapFillers ei (x, y) else []) ++
      fillSorted ei (y :: r))

/-- The sequence-issue list as the spec words it: one issue per consecutive
pair whose delta differs from the mode by more than one second, naming the
expected next instant. -/
def specSeqIssues (m : ℚ) (combined : List (ℕ × ℚ)) : List SeqIssue :=
  ((combined.zip combined.tail).filter (fun p => 1 < |p.2.2 - p.1.2 - m|)).map
    (fun p => ⟨p.1.1, p.2.1, p.1.2 + m, p.2.2⟩)

/-- All eight issue categories of a sheet result are empty. -/
def NoIssues (st : SheetResult) : Prop :=
  st.datetime_issues = [] ∧ st.datetime_format_issues = [] ∧
  st.datetime_sequence_issues = [] ∧ st.numeric_issues = [] ∧
  st.null_issues = [] ∧ st.special_char_issues = [] ∧
  st.alphabetical_issues = [] ∧ st.empty_cell_issues = []

/-- The source's incremental invariant: whenever is_valid is still true, no
issue has been appended to any category (every append sets it false). -/
def StInv (st : SheetResult) : Prop :=
  st.is_valid = true → NoIssues st

/- ## Theorems -/

/-- C6: expected_row_count (validate_row_counts) returns Unknown for a sheet
with fewer than 7 rows or an empty or unparseable anchor cell, and otherwise
month * 60 * 24 * daysInMonth(month, year) + 7, where daysInMonth is 30 for
April, June, September and November, 28 or 29 for February by the leap-year
rules, and 31 for the other months; in particular a January date yields 44647
and a February date of a non-leap year yields 80647. -/
theorem C6_expected_row_count_spec :
    (∀ n a, n < 7 → expected_row_count n a = none) ∧
    (∀ n, expected_row_count n AnchorCell.empty = none ∧
          expected_row_count n AnchorCell.unparseable = none) ∧
    (∀ n m y, 7 ≤ n →
      expected_row_count n (.date m y) =
        some (m * 60 * 24 * get_days_in_month m y + 7)) ∧
    (∀ y, get_days_in_month 4 y = 30 ∧ get_days_in_month 6 y = 30 ∧
          get_days_in_month 9 y = 30 ∧ get_days_in_month 11 y = 30 ∧
          get_days_in_month 2 y = (if is_leap_year y then 29 else 28) ∧
          (is_leap_year y = true ↔ ((y % 4 = 0 ∧ y % 100 ≠ 0) ∨ y % 400 = 0)) ∧
          get_days_in_month 1 y = 31 ∧ get_days_in_month 3 y = 31 ∧
          get_days_in_month 5 y = 31 ∧ get_days_in_month 7 y = 31 ∧
          get_days_in_month 8 y = 31 ∧ get_days_in_month 10 y = 31 ∧
          get_days_in_month 12 y = 31) ∧
    (∀ n y, 7 ≤ n → expected_row_count n (.date 1 y) = some 44647) ∧
    (∀ n y, 7 ≤ n → is_leap_year y = false →
      expected_row_count n (.date 2 y) = some 80647) := by
  refine ⟨?_, ?_, ?_, ?_, ?_, ?_⟩
  · intro n a h
    simp [expected_row_count, h]
  · intro n
    constructor <;> (unfold expected_row_count; split <;> rfl)
  · intro n m y h
    simp [expected_row_count, show ¬ n < 7 by omega]
  · intro y
    refine ⟨rfl, rfl, rfl, rfl, rfl, ?_, rfl, rfl, rfl, rfl, rfl, rfl, rfl⟩
    simp only [is_leap_year, Bool.or_eq_true, Bool.and_eq_true, beq_iff_eq,
      bne_iff_ne, ne_eq]
  · intro n y h
    simp [expected_row_count, show ¬ n < 7 by omega, get_days_in_month]
  · intro n y hn h
    simp [expected_row_count, show ¬ n < 7 by omega, get_days_in_month, h]

/-- Witness for C6 at a concrete sheet: 7 rows, anchor dates in January 2026
and in February 2026 (not a leap year). -/
theorem C6_witness :
    (7 ≤ 7 ∧ is_leap_year 2026 = false) ∧
    expected_row_count 7 (.date 1 2026) = some 44647 ∧
    expected_row_count 7 (.date 2 2026) = some 80647 :=
  ⟨⟨le_refl 7, by decide⟩,
   C6_expected_row_count_spec.2.2.2.2.1 7 2026 (le_refl 7),
   C6_expected_row_count_spec.2.2.2.2.2 7 2026 (le_refl 7) (by decide)⟩

/-- C9: column_letter_to_index does not fail on a label containing a
non-letter character; it silently returns a (negative, meaningless) index, so
no InvalidLabel error and no fail-fast validation error can occur.  The source
evaluated at the failing input "5" returns -12. -/
theorem C9_invalid_label_no_failure :
    column_letter_to_index "5".data = -12 ∧
    column_letter_to_index "@".data = -1 ∧
    column_letter_to_index "A".data = 0 := by
  refine ⟨?_, ?_, ?_⟩ <;>
    simp [column_letter_to_index, List.enum]

/-- C8: the per-cell classifier of the numeric pass agrees with the spec's
seven-clause first-match-wins cascade (null, empty trimmed text, numeric
runtime type, float-parseable text, alphabetic character, character outside
0-9 . -, otherwise), and on the five spec examples yields Numeric,
EmptyString, Alphabetic, SpecialChar and NonNumericOther. -/
theorem C8_cell_classifier_spec :
    (∀ s, classifyCell (.text s) = specClassify (.text s) (pyStrip s)) ∧
    (∀ t, specClassify .null t = classifyCell .null) ∧
    (∀ q t, t ≠ [] → specClassify (.num q) t = classifyCell (.num q)) ∧
    classifyCell (.text "12.5".data) = .numericTag ∧
    classifyCell (.text "".data) = .emptyTag ∧
    classifyCell (.text "abc".data) = .alphaTag ∧
    classifyCell (.text "12#5".data) = .specialTag ∧
    classifyCell (.text "1.2.3".data) = .otherTag := by
  refine ⟨?_, ?_, ?_, by decide, by decide, by decide, by decide, by decide⟩
  · intro s
    simp [classifyCell, specClassify, isNullVal, isNumericType]
  · intro t
    simp [classifyCell, specClassify, isNullVal]
  · intro q t h
    simp [classifyCell, specClassify, isNullVal, isNumericType, h]

/-- Witness for C8 at a concrete numeric raw value with non-empty text. -/
theorem C8_witness :
    (['5'] : PyStr) ≠ [] ∧ specClassify (.num 5) ['5'] = classifyCell (.num 5) :=
  ⟨by decide, C8_cell_classifier_spec.2.2.1 5 ['5'] (by decide)⟩

lemma colVal_append (ds : List ℕ) (d : ℕ) :
    colVal (ds ++ [d]) = colVal ds * 26 + (d + 1) := by
  simp [colVal, List.foldl_append]

lemma excelColDigits_colVal (i : ℕ) : colVal (excelColDigits i) = i + 1 := by
  induction i using Nat.strong_induction_on with
  | _ i ih =>
    rw [excelColDigits]
    by_cases h : i < 26
    · simp [h, colVal]
    · have hlt : i / 26 - 1 < i := by
        have := Nat.div_lt_self (show 0 < i by omega) (show 1 < 26 by omega)
        omega
      simp only [h, if_false]
      rw [colVal_append, ih _ hlt]
      have h1 : 1 ≤ i / 26 := (Nat.one_le_div_iff (by omega)).mpr (by omega)
      have h2 := Nat.div_add_mod i 26
      omega

lemma excelColDigits_lt (i : ℕ) : ∀ d ∈ excelColDigits i, d < 26 := by
  induction i using Nat.strong_induction_on with
  | _ i ih =>
    rw [excelColDigits]
    by_cases h : i < 26
    · simp [h]
    · have hlt : i / 26 - 1 < i := by
        have := Nat.div_lt_self (show 0 < i by omega) (show 1 < 26 by omega)
        omega
      simp only [h, if_false, List.mem_append, List.mem_singleton]
      rintro d (hd | rfl)
      · exact ih _ hlt d hd
      · exact Nat.mod_lt _ (by omega)

lemma char_upper_fixed : ∀ d < 26, Char.toUpper (Char.ofNat (65 + d)) = Char.ofNat (65 + d) := by
  decide

lemma char_toNat_ofNat : ∀ d < 26, (Char.ofNat (65 + d)).toNat = 65 + d := by
  decide

lemma foldl_colSum (l : List (ℕ × Char)) (c : ℤ) :
    l.foldl (fun acc p => acc + ((p.2.toNat : ℤ) - 65 + 1) * 26 ^ p.1) c
      = c + (l.map (fun p => ((p.2.toNat : ℤ) - 65 + 1) * 26 ^ p.1)).sum := by
  induction l generalizing c with
  | nil => simp
  | cons a l ih =>
    simp only [List.foldl_cons, List.map_cons, List.sum_cons, ih]
    ring

lemma enumFrom_colVal (es : List ℕ) (h : ∀ d ∈ es, d < 26) : ∀ n : ℕ,
    (((es.map (fun d => Char.ofNat (65 + d))).enumFrom n).map
        (fun p => ((p.2.toNat : ℤ) - 65 + 1) * 26 ^ p.1)).sum
      = 26 ^ n * (colVal es.reverse : ℤ) := by
  induction es with
  | nil =>
    intro n
    simp [colVal]
  | cons d es ih =>
    intro n
    have hd : d < 26 := h d (by simp)
    have htoNat : (Char.ofNat (65 + d)).toNat = 65 + d := char_toNat_ofNat d hd
    simp only [List.map_cons, List.enumFrom_cons, List.sum_cons, htoNat]
    rw [ih (fun x hx => h x (by simp [hx])) (n + 1)]
    rw [List.reverse_cons, colVal_append]
    push_cast
    ring

/-- C7: labelToIndex is a left inverse of indexToLabel on every index, in the
bijective base-26 sense, and indexToLabel maps 0 to A, 25 to Z and 26 to AA. -/
theorem C7_column_roundtrip :
    (∀ i : ℕ, column_letter_to_index (get_excel_column_name i) = i) ∧
    get_excel_column_name 0 = "A".data ∧
    get_excel_column_name 25 = "Z".data ∧
    get_excel_column_name 26 = "AA".data := by
  refine ⟨?_, ?_, ?_, ?_⟩
  · intro i
    have hlt := excelColDigits_lt i
    have hupper :
        (excelColDigits i).map (Char.toUpper ∘ fun d => Char.ofNat (65 + d))
          = (excelColDigits i).map (fun d => Char.ofNat (65 + d)) :=
      List.map_congr_left (fun d hd => char_upper_fixed d (hlt d hd))
    rw [column_letter_to_index, get_excel_column_name, List.map_map, hupper,
      ← List.map_reverse, List.enum_eq_enumFrom, foldl_colSum,
      enumFrom_colVal _ (fun d hd => hlt d (List.mem_reverse.mp hd)) 0,
      List.reverse_reverse, excelColDigits_colVal]
    push_cast
    ring
  · simp [get_excel_column_name, excelColDigits]
  · simp [get_excel_column_name, excelColDigits]
  · simp [get_excel_column_name, excelColDigits]

lemma find?_split {α : Type _} (p : α → Bool) (l : List α) (a : α)
    (h : l.find? p = some a) :
    p a = true ∧ ∃ l₁ l₂, l = l₁ ++ a :: l₂ ∧ ∀ x ∈ l₁, p x = false := by
  induction l with
  | nil => simp at h
  | cons b l ih =>
    by_cases hb : p b
    · rw [List.find?_cons_of_pos _ hb] at h
      obtain rfl : b = a := by injection h
      exact ⟨hb, [], l, rfl, by simp⟩
    · rw [List.find?_cons_of_neg _ (by simpa using hb)] at h
      obtain ⟨hpa, l₁, l₂, rfl, hall⟩ := ih h
      refine ⟨hpa, b :: l₁, l₂, rfl, ?_⟩
      intro x hx
      rcases List.mem_cons.mp hx with rfl | hx
      · simpa using hb
      · exact hall x hx

lemma detect_date_format_eq_none_iff (cells : List PyVal) :
    detect_date_format cells = none ↔ ∀ c ∈ cells, dateCellClass c = none := by
  induction cells with
  | nil => simp [detect_date_format]
  | cons v rest ih =>
    cases h : dateCellClass v <;> simp [detect_date_format, h, ih]

lemma detect_date_format_first (pre : List PyVal) (v : PyVal) (post : List PyVal)
    (r : DetectedDate) (hpre : ∀ c ∈ pre, dateCellClass c = none)
    (hv : dateCellClass v = some r) :
    detect_date_format (pre ++ v :: post) = some r := by
  induction pre with
  | nil => simp [detect_date_format, hv]
  | cons c pre ih =>
    have hc : dateCellClass c = none := hpre c (by simp)
    simpa [detect_date_format, hc] using
      ih (fun x hx => hpre x (by simp [hx]))

/-- C4: the date-format detection pass scans the column top-to-bottom and
stops at the first classifiable cell: a structured date-time value yields the
'datetime_object' sentinel, a text cell yields the first pattern in the fixed
declared order that parses its trimmed text; earlier unclassifiable cells are
skipped, later cells cannot change the result, and the result is None exactly
when no cell classifies.  On ["09.01.2026", "10.01.2026"] the result is the
D.M.Y pattern, and on ["not-a-date"] it is None. -/
theorem C4_format_detector_spec :
    (∀ pre v post r, (∀ c ∈ pre, dateCellClass c = none) → dateCellClass v = some r →
        detect_date_format (pre ++ v :: post) = some r) ∧
    (∀ cells, detect_date_format cells = none ↔ ∀ c ∈ cells, dateCellClass c = none) ∧
    (∀ v, dateCellClass v = some .native ↔ ∃ x, v = .dtObj x) ∧
    (∀ s f, dateCellClass (.text s) = some (.fmt f) →
        (parseDateFmt f (pyStrip s)).isSome = true ∧
        ∃ l₁ l₂, date_formats_to_try = l₁ ++ f :: l₂ ∧
          ∀ g ∈ l₁, parseDateFmt g (pyStrip s) = none) ∧
    (∀ cells extra, detect_date_format cells ≠ none →
        detect_date_format (cells ++ extra) = detect_date_format cells) ∧
    detect_date_format [.text "09.01.2026".data, .text "10.01.2026".data]
      = some (.fmt ⟨'.', .dmy⟩) ∧
    detect_date_format [.text "not-a-date".data] = none := by
  refine ⟨?_, detect_date_format_eq_none_iff, ?_, ?_, ?_, by decide, by decide⟩
  · intro pre v post r hpre hv
    exact detect_date_format_first pre v post r hpre hv
  · intro v
    cases v <;> simp [dateCellClass]
  · intro s f h
    have hfind : date_formats_to_try.find?
        (fun g => (parseDateFmt g (pyStrip s)).isSome) = some f := by
      cases hf : date_formats_to_try.find?
          (fun g => (parseDateFmt g (pyStrip s)).isSome) with
      | none => simp [dateCellClass, hf] at h
      | some g =>
        simp only [dateCellClass, hf, Option.map_some'] at h
        obtain rfl : g = f := by injection h with h'; injection h'
        rfl
    obtain ⟨hpf, l₁, l₂, hsplit, hall⟩ := find?_split _ _ _ hfind
    refine ⟨hpf, l₁, l₂, hsplit, fun g hg => ?_⟩
    have := hall g hg
    simpa [Option.not_isSome_iff_eq_none] using this
  · intro cells extra h
    induction cells with
    | nil => simp [detect_date_format] at h
    | cons v rest ih =>
      cases hv : dateCellClass v with
      | some r => simp [detect_date_format, hv]
      | none =>
        simp only [detect_date_format, hv, List.cons_append] at h ⊢
        exact ih h

/-- Witness for C4: the scan-and-lock property applied at the concrete
two-cell column of the spec example. -/
theorem C4_witness :
    ((∀ c ∈ ([] : List PyVal), dateCellClass c = none) ∧
     dateCellClass (.text "09.01.2026".data) = some (.fmt ⟨'.', .dmy⟩)) ∧
    detect_date_format ([] ++ .text "09.01.2026".data :: [.text "10.01.2026".data])
      = some (.fmt ⟨'.', .dmy⟩) :=
  ⟨⟨by simp, by decide⟩,
   C4_format_detector_spec.1 [] _ [.text "10.01.2026".data] _ (by simp) (by decide)⟩

/-- C10 (amended): in the undetected-format fallback, a row first passes the
null checks on both cells; the date value is then tried against every date
pattern in the declared order, recording a datetime_format issue exactly when
it matches none; the time value is examined only when the date side did not
fail, and is then tried against every time pattern, recording an issue exactly
when it matches none.  Values in rows skipped by the null checks, or time
values after a date failure, are not examined at all. -/
theorem C10_fallback_parse_spec :
    (∀ detT acc r (dv tv : PyVal),
      (dtRow none detT acc r dv tv).1.datetime_format_issues =
        acc.1.datetime_format_issues ++
          (if isNullVal dv ∨ isNullVal tv then []
           else if parseDateSide none dv = .fail then [⟨r, .dateCol⟩]
           else if parseTimeSide detT tv = .fail then [⟨r, .timeCol⟩]
           else [])) ∧
    (∀ s, parseDateSide none (.text s) = .fail ↔
       ∀ f ∈ date_formats_to_try, parseDateFmt f (pyStrip s) = none) ∧
    (∀ s, parseTimeSide none (.text s) = .fail ↔
       ∀ f ∈ time_formats_to_try, parseTimeFmt f (pyStrip s) = none) := by
  refine ⟨?_, ?_, ?_⟩
  · rintro detT ⟨st, comb⟩ r dv tv
    by_cases hd : isNullVal dv
    · simp [dtRow, hd]
    · by_cases ht : isNullVal tv
      · simp [dtRow, hd, ht]
      · cases hP : parseDateSide none dv <;> cases hQ : parseTimeSide detT tv <;>
          simp [dtRow, hd, ht, hP, hQ]
  · intro s
    constructor
    · intro h f hfm
      cases hf : date_formats_to_try.findSome?
          (fun g => (parseDateFmt g (pyStrip s)).map dateInstant) with
      | some x => simp [parseDateSide, hf] at h
      | none =>
        have := List.findSome?_eq_none_iff.mp hf f hfm
        simpa using this
    · intro hall
      have hf : date_formats_to_try.findSome?
          (fun g => (parseDateFmt g (pyStrip s)).map dateInstant) = none := by
        rw [List.findSome?_eq_none_iff]
        intro f hfm
        simp [hall f hfm]
      simp [parseDateSide, hf]
  · intro s
    constructor
    · intro h f hfm
      cases hf : time_formats_to_try.findSome?
          (fun g => (parseTimeFmt g (pyStrip s)).map timeInstant) with
      | some x => simp [parseTimeSide, hf] at h
      | none =>
        have := List.findSome?_eq_none_iff.mp hf f hfm
        simpa using this
    · intro hall
      have hf : time_formats_to_try.findSome?
          (fun g => (parseTimeFmt g (pyStrip s)).map timeInstant) = none := by
        rw [List.findSome?_eq_none_iff]
        intro f hfm
        simp [hall f hfm]
      simp [parseTimeSide, hf]

/-- The original C10 claim is false on the code: here the date column contains
the non-null value "x" that matches no pattern and no format was detected,
yet no datetime_format issue is recorded, because the row's time cell is null
and the null check skips the row before any parsing. -/
theorem C10_counterexample :
    (validate_data_sheet ⟨2, [[.text "x".data, .null]]⟩ 1 0 1 9 2).detected_date_format
      = none ∧
    isNullVal (.text "x".data) = false ∧
    (∀ f ∈ date_formats_to_try, parseDateFmt f (pyStrip "x".data) = none) ∧
    (validate_data_sheet ⟨2, [[.text "x".data, .null]]⟩ 1 0 1 9 2).datetime_format_issues
      = [] :=
  ⟨by decide, by decide, by decide, by decide⟩

/-- Witness for C10 at a concrete fallback row whose unparseable date value
is recorded as a format issue. -/
theorem C10_witness :
    (dtRow none none (initResult, []) 1 (.text "x".data)
        (.text "y".data)).1.datetime_format_issues = [⟨1, .dateCol⟩] ∧
    (parseDateSide none (.text "x".data) = .fail ↔
      ∀ f ∈ date_formats_to_try, parseDateFmt f (pyStrip "x".data) = none) := by
  constructor
  · rw [C10_fallback_parse_spec.1 none (initResult, []) 1 (.text "x".data) (.text "y".data)]
    decide
  · exact C10_fallback_parse_spec.2.1 "x".data

lemma seq_foldl_issues (m : ℚ) (pairs : List ((ℕ × ℚ) × ℕ × ℚ)) :
    ∀ st, (pairs.foldl (seqStep m) st).datetime_sequence_issues
      = st.datetime_sequence_issues ++
        (pairs.filter (fun p => 1 < |p.2.2 - p.1.2 - m|)).map
          (fun p => (⟨p.1.1, p.2.1, p.1.2 + m, p.2.2⟩ : SeqIssue)) := by
  induction pairs with
  | nil => intro st; simp
  | cons p ps ih =>
    intro st
    rw [List.foldl_cons, List.filter_cons]
    by_cases hp : 1 < |p.2.2 - p.1.2 - m|
    · rw [if_pos (by simpa using hp), List.map_cons, ih]
      simp [seqStep, hp]
    · rw [if_neg (by simpa using hp), ih]
      simp [seqStep, hp]

lemma seq_foldl_interval (m : ℚ) (pairs : List ((ℕ × ℚ) × ℕ × ℚ)) :
    ∀ st, (pairs.foldl (seqStep m) st).detected_interval = st.detected_interval := by
  induction pairs with
  | nil => intro st; rfl
  | cons p ps ih =>
    intro st
    rw [List.foldl_cons, ih]
    unfold seqStep
    split <;> rfl

lemma modeOf_aux (l : List ℚ) (todo : List ℚ) : ∀ best : ℚ,
    ((todo.foldl (fun best x => if l.count x > l.count best then x else best) best) = best ∨
      (todo.foldl (fun best x => if l.count x > l.count best then x else best) best) ∈ todo) ∧
    l.count best ≤
      l.count (todo.foldl (fun best x => if l.count x > l.count best then x else best) best) ∧
    ∀ x ∈ todo,
      l.count x ≤
        l.count (todo.foldl (fun best x => if l.count x > l.count best then x else best) best) := by
  induction todo with
  | nil => intro best; exact ⟨Or.inl rfl, le_refl _, by simp⟩
  | cons t ts ih =>
    intro best
    rw [List.foldl_cons]
    by_cases hc : l.count t > l.count best
    · rw [if_pos hc]
      obtain ⟨hmem, hle, hall⟩ := ih t
      refine ⟨?_, le_trans (le_of_lt hc) hle, ?_⟩
      · rcases hmem with h | h
        · refine Or.inr ?_
          rw [h]
          exact List.mem_cons_self t ts
        · exact Or.inr (List.mem_cons_of_mem t h)
      · intro x hx
        rcases List.mem_cons.mp hx with rfl | hx
        · exact hle
        · exact hall x hx
    · rw [if_neg hc]
      obtain ⟨hmem, hle, hall⟩ := ih best
      refine ⟨?_, hle, ?_⟩
      · rcases hmem with h | h
        · exact Or.inl h
        · exact Or.inr (List.mem_cons_of_mem t h)
      · intro x hx
        rcases List.mem_cons.mp hx with rfl | hx
        · exact le_trans (le_of_not_lt hc) hle
        · exact hall x hx

lemma modeOf_spec (l : List ℚ) (h : l ≠ []) :
    modeOf l ∈ l ∧ ∀ x ∈ l, l.count x ≤ l.count (modeOf l) := by
  obtain ⟨hmem, _, hall⟩ := modeOf_aux l l (l.headD 0)
  refine ⟨?_, hall⟩
  rcases hmem with heq | hmem
  · rw [modeOf, heq]
    cases l with
    | nil => exact absurd rfl h
    | cons a l => exact List.mem_cons_self a l
  · exact hmem

lemma StInv_initResult : StInv initResult :=
  fun _ => ⟨rfl, rfl, rfl, rfl, rfl, rfl, rfl, rfl⟩

lemma StInv_foldl {α : Type _} {f : SheetResult → α → SheetResult}
    (hf : ∀ st a, StInv st → StInv (f st a)) (l : List α) :
    ∀ st, StInv st → StInv (l.foldl f st) := by
  induction l with
  | nil => intro st h; exact h
  | cons a l ih => intro st h; exact ih _ (hf st a h)

lemma StInv_foldl_fst {α β : Type _} {f : SheetResult × β → α → SheetResult × β}
    (hf : ∀ acc a, StInv acc.1 → StInv (f acc a).1) (l : List α) :
    ∀ acc, StInv acc.1 → StInv ((l.foldl f acc).1) := by
  induction l with
  | nil => intro acc h; exact h
  | cons a l ih => intro acc h; exact ih _ (hf acc a h)

lemma StInv_seqStep (m : ℚ) (st : SheetResult) (p : (ℕ × ℚ) × ℕ × ℚ)
    (h : StInv st) : StInv (seqStep m st p) := by
  unfold seqStep
  split
  · intro h'
    simp at h'
  · exact h

lemma StInv_seqCheck (st : SheetResult) (combined : List (ℕ × ℚ))
    (h : StInv st) : StInv (seqCheck st combined) := by
  unfold seqCheck
  split
  · exact StInv_foldl (fun st p hst => StInv_seqStep _ st p hst) _ _ (fun hv => h hv)
  · exact h

lemma StInv_recordCellIssue (st : SheetResult) (rc : ℕ × ℕ) (tag : CellTag)
    (h : StInv st) : StInv (recordCellIssue st rc tag) := by
  cases tag
  all_goals first
    | exact h
    | (intro h'; simp [recordCellIssue] at h')

lemma StInv_numericPass (df : DataSheet) (a b : ℕ) (st : SheetResult)
    (h : StInv st) : StInv (numericPass df a b st) := by
  unfold numericPass
  split
  · split
    · refine StInv_foldl ?_ _ _ h
      intro st c hst
      refine StInv_foldl ?_ _ _ hst
      intro st p hst'
      exact StInv_recordCellIssue _ _ _ hst'
    · exact h
  · exact h

lemma StInv_dtRow (detD : Option DetectedDate) (detT : Option DetectedTime)
    (acc : SheetResult × List (ℕ × ℚ)) (r : ℕ) (dv tv : PyVal)
    (h : StInv acc.1) : StInv (dtRow detD detT acc r dv tv).1 := by
  obtain ⟨st, comb⟩ := acc
  unfold dtRow
  dsimp only
  repeat' split
  all_goals
    intro h'
    first
      | exact h h'
      | exact absurd h' (by simp)

lemma StInv_validate_data_sheet (df : DataSheet) (r1 c1 c2 r2 c3 : ℕ) :
    StInv (validate_data_sheet df r1 c1 c2 r2 c3) := by
  unfold validate_data_sheet
  apply StInv_numericPass
  split
  · apply StInv_seqCheck
    apply StInv_foldl_fst
    · intro acc p hacc
      exact StInv_dtRow _ _ _ _ _ _ hacc
    · intro hv
      exact ⟨rfl, rfl, rfl, rfl, rfl, rfl, rfl, rfl⟩
  · exact StInv_initResult

/-- C5: in the sequence check, the expected interval is the statistical mode
of the consecutive deltas (most frequent exact value, first occurrence
breaking ties), classified as 1 minute for 60, 1 hour for 3600, 1 day for
86400, and otherwise as a minutes label (truncated) when under 60 minutes or
an hours label; on the re-walk a datetime_sequence issue naming the expected
next instant dt1 + mode and the actual dt2 is recorded exactly for the pairs
whose delta differs from the mode by more than one second; and a sheet's
is_valid is false whenever any issue category is non-empty. -/
theorem C5_interval_and_validity :
    (∀ (combined : List (ℕ × ℚ)) st, 2 ≤ combined.length →
      (seqCheck st combined).datetime_sequence_issues =
        st.datetime_sequence_issues ++
          specSeqIssues (modeOf (deltasOf (combined.map (·.2)))) combined ∧
      (seqCheck st combined).detected_interval =
        some (classifyInterval (modeOf (deltasOf (combined.map (·.2)))))) ∧
    (∀ l : List ℚ, l ≠ [] →
      modeOf l ∈ l ∧ ∀ x ∈ l, l.count x ≤ l.count (modeOf l)) ∧
    (∀ m : ℚ,
      (m = 60 → classifyInterval m = .oneMinute) ∧
      (m = 3600 → classifyInterval m = .oneHour) ∧
      (m = 86400 → classifyInterval m = .oneDay) ∧
      (m ≠ 60 → m ≠ 3600 → m ≠ 86400 → m / 60 < 60 →
        classifyInterval m = .minutesL (pyTrunc (m / 60))) ∧
      (m ≠ 60 → m ≠ 3600 → m ≠ 86400 → ¬ m / 60 < 60 →
        classifyInterval m = .hoursL (m / 3600))) ∧
    (∀ df r1 c1 c2 r2 c3, ¬ NoIssues (validate_data_sheet df r1 c1 c2 r2 c3) →
      (validate_data_sheet df r1 c1 c2 r2 c3).is_valid = false) := by
  refine ⟨?_, modeOf_spec, ?_, ?_⟩
  · intro combined st h2
    unfold seqCheck
    rw [if_pos h2]
    constructor
    · rw [seq_foldl_issues]
      rfl
    · rw [seq_foldl_interval]
  · intro m
    refine ⟨?_, ?_, ?_, ?_, ?_⟩
    · intro h; simp [classifyInterval, h]
    · intro h; simp [classifyInterval, h]
    · intro h; simp [classifyInterval, h]
    · intro h1 h2 h3 h4; simp [classifyInterval, h1, h2, h3, h4]
    · intro h1 h2 h3 h4; simp [classifyInterval, h1, h2, h3, h4]
  · intro df r1 c1 c2 r2 c3 hne
    by_contra hval
    have hvalid : (validate_data_sheet df r1 c1 c2 r2 c3).is_valid = true := by
      cases hb : (validate_data_sheet df r1 c1 c2 r2 c3).is_valid
      · exact absurd hb hval
      · rfl
    exact hne (StInv_validate_data_sheet df r1 c1 c2 r2 c3 hvalid)

/-- Witness for C5 at a concrete sheet whose single cell "a" produces a
format issue and an alphabetical issue, so is_valid is false. -/
theorem C5_witness :
    ¬ NoIssues (validate_data_sheet ⟨1, [[.text "a".data]]⟩ 1 0 0 1 0) ∧
    (validate_data_sheet ⟨1, [[.text "a".data]]⟩ 1 0 0 1 0).is_valid = false := by
  have hval : (validate_data_sheet ⟨1, [[.text "a".data]]⟩ 1 0 0 1 0).alphabetical_issues
      = [(1, 0)] := by decide
  have hne : ¬ NoIssues (validate_data_sheet ⟨1, [[.text "a".data]]⟩ 1 0 0 1 0) := by
    intro h
    have h7 := h.2.2.2.2.2.2.1
    rw [hval] at h7
    simp at h7
  exact ⟨hne, C5_interval_and_validity.2.2.2 _ _ _ _ _ _ hne⟩

lemma foldl_lastIdx (p : ℕ → Bool) (n : ℕ) :
    ((List.range n).foldl (fun acc c => if p c then (c : ℤ) else acc) (-1) = -1 ↔
      ∀ c < n, ¬ p c) ∧
    (∀ w : ℕ, (List.range n).foldl (fun acc c => if p c then (c : ℤ) else acc) (-1) = w ↔
      (w < n ∧ p w ∧ ∀ c, w < c → c < n → ¬ p c)) := by
  induction n with
  | zero => simp
  | succ n ih =>
    have hfold : (List.range (n + 1)).foldl (fun acc c => if p c then (c : ℤ) else acc) (-1)
        = if p n then (n : ℤ)
          else (List.range n).foldl (fun acc c => if p c then (c : ℤ) else acc) (-1) := by
      rw [List.range_succ, List.foldl_append]
      simp
    constructor
    · rw [hfold]
      by_cases hp : p n
      · rw [if_pos hp]
        constructor
        · intro habs
          exfalso
          omega
        · intro hall
          exact absurd hp (hall n (Nat.lt_succ_self n))
      · rw [if_neg hp, ih.1]
        constructor
        · intro hall c hc
          rcases Nat.lt_succ_iff_lt_or_eq.mp hc with h | rfl
          · exact hall c h
          · exact hp
        · intro hall c hc
          exact hall c (Nat.lt_succ_of_lt hc)
    · intro w
      rw [hfold]
      by_cases hp : p n
      · rw [if_pos hp]
        constructor
        · intro hw
          have hwn : n = w := by exact_mod_cast hw
          subst hwn
          exact ⟨Nat.lt_succ_self _, hp, fun c hc1 hc2 => by omega⟩
        · rintro ⟨hw1, hw2, hw3⟩
          have hwn : w = n := by
            by_contra hne
            exact absurd hp (hw3 n (by omega) (Nat.lt_succ_self n))
          subst hwn
          rfl
      · rw [if_neg hp, ih.2 w]
        constructor
        · rintro ⟨hw1, hw2, hw3⟩
          refine ⟨Nat.lt_succ_of_lt hw1, hw2, ?_⟩
          intro c hc1 hc2
          rcases (by omega : c < n ∨ c = n) with h | rfl
          · exact hw3 c hc1 h
          · exact hp
        · rintro ⟨hw1, hw2, hw3⟩
          have hwn : w ≠ n := fun h => hp (h ▸ hw2)
          exact ⟨by omega, hw2, fun c hc1 hc2 => hw3 c hc1 (by omega)⟩

/-- C1 (amended): cell comparison runs only when the column counts match — a
column-count mismatch suppresses all cell comparison for the sheet; when the
counts match, for each requested row present in both tables the watermark is
the greatest column index whose template cell is non-empty (no comparison at
all when the row has none), the columns 0..watermark are each compared by
trimmed-string equality of the stringified values (null becoming the empty
string), and a mismatch is recorded exactly for the compared cells whose
trimmed strings differ. -/
theorem C1_compare_cells_spec (tmpl data : CmpTable) (rows : List ℕ) :
    (tmpl.cols ≠ data.cols → (compare_cells tmpl data rows).2 = []) ∧
    (tmpl.cols = data.cols →
      ∀ m : CellMismatch, m ∈ (compare_cells tmpl data rows).2 ↔
        (m.row ∈ rows ∧ m.row < tmpl.rows.length ∧ m.row < data.rows.length ∧
         (m.col : ℤ) ≤ lastColWithData tmpl m.row ∧
         m.templateValue = cellStr (cmpCell tmpl m.row m.col) ∧
         m.dataValue = cellStr (cmpCell data m.row m.col) ∧
         m.templateValue ≠ m.dataValue)) ∧
    (∀ r, (rowChecked tmpl data r).map (·.1) =
        List.range ((lastColWithData tmpl r + 1).toNat) ∧
      (∀ p ∈ rowChecked tmpl data r,
        p.2.1 = cellStr (cmpCell tmpl r p.1) ∧ p.2.2 = cellStr (cmpCell data r p.1)) ∧
      (lastColWithData tmpl r = -1 ↔ ∀ c < tmpl.cols, ¬ cellHasData (cmpCell tmpl r c)) ∧
      (∀ w : ℕ, lastColWithData tmpl r = (w : ℤ) ↔
        (w < tmpl.cols ∧ cellHasData (cmpCell tmpl r w) ∧
         ∀ c, w < c → c < tmpl.cols → ¬ cellHasData (cmpCell tmpl r c)))) := by
  refine ⟨?_, ?_, ?_⟩
  · intro h
    have hbeq : (tmpl.cols == data.cols) = false := by simpa using h
    simp [compare_cells, hbeq]
  · intro h m
    obtain ⟨mr, mc, mt, md⟩ := m
    have hbeq : (tmpl.cols == data.cols) = true := by simpa using h
    simp only [compare_cells, hbeq, if_true, List.mem_flatMap, List.mem_filter,
      List.mem_filterMap, rowChecked, List.mem_map, List.mem_range,
      Bool.and_eq_true, decide_eq_true_eq, Option.ite_none_right_eq_some,
      Option.some.injEq, CellMismatch.mk.injEq]
    constructor
    · rintro ⟨r, ⟨hrmem, hr1, hr2⟩, p, ⟨c, hc, rfl⟩, hne, rfl, rfl, rfl, rfl⟩
      exact ⟨hrmem, hr1, hr2, by omega, rfl, rfl, hne⟩
    · rintro ⟨hrmem, hr1, hr2, hcle, rfl, rfl, hne⟩
      refine ⟨mr, ⟨hrmem, hr1, hr2⟩,
        (mc, cellStr (cmpCell tmpl mr mc), cellStr (cmpCell data mr mc)),
        ⟨mc, by omega, rfl⟩, hne, rfl, rfl, rfl, rfl⟩
  · intro r
    refine ⟨?_, ?_, ?_, ?_⟩
    · simp only [rowChecked, List.map_map]
      show (List.range ((lastColWithData tmpl r + 1).toNat)).map (fun c => c)
          = List.range ((lastColWithData tmpl r + 1).toNat)
      simp
    · intro p hp
      simp only [rowChecked, List.mem_map, List.mem_range] at hp
      obtain ⟨c, _, rfl⟩ := hp
      exact ⟨rfl, rfl⟩
    · exact (foldl_lastIdx (fun c => cellHasData (cmpCell tmpl r c)) tmpl.cols).1
    · exact (foldl_lastIdx (fun c => cellHasData (cmpCell tmpl r c)) tmpl.cols).2

/-- The original C1 claim is false on the code: here row 0 is requested and
present in both tables, the template watermark is column 0 and the trimmed
values at (0,0) differ, yet no mismatch is recorded, because the tables have
different column counts and the source only compares cells under the
columns-match test (app.py 237). -/
theorem C1_counterexample :
    (compare_cells ⟨1, [[some "x".data]]⟩ ⟨2, [[some "y".data, some "z".data]]⟩ [0]).2
      = [] ∧
    lastColWithData ⟨1, [[some "x".data]]⟩ 0 = 0 ∧
    cellStr (cmpCell ⟨1, [[some "x".data]]⟩ 0 0) ≠
      cellStr (cmpCell ⟨2, [[some "y".data, some "z".data]]⟩ 0 0) :=
  ⟨by decide, by decide, by decide⟩

/-- Witness for C1: the suppression branch applied at two concrete tables
with different column counts. -/
theorem C1_witness :
    (⟨1, [[some "x".data]]⟩ : CmpTable).cols ≠
      (⟨2, [[some "y".data, some "z".data]]⟩ : CmpTable).cols ∧
    (compare_cells ⟨1, [[some "x".data]]⟩ ⟨2, [[some "y".data, some "z".data]]⟩ [0]).2
      = [] :=
  ⟨by decide,
   (C1_compare_cells_spec ⟨1, [[some "x".data]]⟩
     ⟨2, [[some "y".data, some "z".data]]⟩ [0]).1 (by decide)⟩

lemma gap_foldl (ei : ℚ) (pairs : List (ℚ × ℚ)) :
    ∀ acc : List Gap × List ℚ,
      pairs.foldl (gapStep ei) acc
        = (acc.1 ++ (pairs.filter (fun p => p.2 - p.1 > ei * (11 / 10))).map (gapOf ei),
           acc.2 ++ (pairs.filter (fun p => p.2 - p.1 > ei * (11 / 10))).flatMap
             (gapFillers ei)) := by
  induction pairs with
  | nil => intro acc; simp
  | cons p ps ih =>
    intro acc
    rw [List.foldl_cons, List.filter_cons]
    by_cases hp : p.2 - p.1 > ei * (11 / 10)
    · rw [if_pos (by simpa using hp), ih]
      simp [gapStep, hp]
    · rw [if_neg (by simpa using hp), ih]
      simp [gapStep, hp]

lemma find_missing_data_eq (ts : List ℚ) (h2 : deltasOf (sortedTimes ts) ≠ []) :
    find_missing_data ts
      = some (roundedInterval (modeOf (deltasOf (sortedTimes ts))),
          specGaps (roundedInterval (modeOf (deltasOf (sortedTimes ts)))) (sortedTimes ts),
          specMissing (roundedInterval (modeOf (deltasOf (sortedTimes ts))))
            (sortedTimes ts)) := by
  simp only [find_missing_data]
  rw [if_pos (by simpa using h2), gap_foldl]
  simp [specGaps, specMissing]

lemma gapMissingRows_eq_floor (ei : ℚ) (p : ℚ × ℚ) (hpos : 0 < ei)
    (h : p.2 - p.1 > ei * (11 / 10)) :
    gapMissingRows ei p = ⌊(p.2 - p.1) / ei⌋ - 1 := by
  unfold gapMissingRows pyTrunc
  rw [if_neg]
  have h0 : (0 : ℚ) < ei * (11 / 10) := mul_pos hpos (by norm_num)
  exact not_lt.mpr (le_of_lt (div_pos (lt_trans h0 h) hpos))

/-- C2 (amended): the baseline interval is the mode of the consecutive deltas
in minutes, rounded to the nearest integer whenever the mode is within 0.1 of
one (unless overridden by the caller); for every consecutive sorted pair whose
delta exceeds 1.1 times the baseline exactly one Gap is recorded, with
missingCount = floor(delta/baseline) - 1 and missingMinutes = missingCount *
baseline, and exactly missingCount instants are synthesized at
start + k * baseline for k = 1..missingCount; gaps are never merged.  For
1-minute data with one pair 5 minutes apart the baseline is 1, the single Gap
has missingCount 4, and the instants are at +1,+2,+3,+4. -/
theorem C2_gap_analyzer_spec (ts : List ℚ)
    (h2 : deltasOf (sortedTimes ts) ≠ [])
    (hpos : 0 < roundedInterval (modeOf (deltasOf (sortedTimes ts)))) :
    ∃ ei gaps missing,
      find_missing_data ts = some (ei, gaps, missing) ∧
      ei = roundedInterval (modeOf (deltasOf (sortedTimes ts))) ∧
      gaps = specGaps ei (sortedTimes ts) ∧
      missing = specMissing ei (sortedTimes ts) ∧
      (∀ p ∈ (sortedTimes ts).zip (sortedTimes ts).tail,
        p.2 - p.1 > ei * (11 / 10) →
          gapOf ei p = ⟨p.1, p.2, ((⌊(p.2 - p.1) / ei⌋ - 1 : ℤ) : ℚ) * ei,
            ⌊(p.2 - p.1) / ei⌋ - 1⟩ ∧
          gapFillers ei p = (List.range (⌊(p.2 - p.1) / ei⌋ - 1).toNat).map
            (fun (j : ℕ) => p.1 + ((j : ℚ) + 1) * ei)) ∧
      find_missing_data [0, 1, 2, 3, 8, 9, 10]
        = some (1, [⟨3, 8, 4, 4⟩], [4, 5, 6, 7]) := by
  refine ⟨roundedInterval (modeOf (deltasOf (sortedTimes ts))),
    specGaps _ (sortedTimes ts), specMissing _ (sortedTimes ts),
    find_missing_data_eq ts h2, rfl, rfl, rfl, ?_, ?_⟩
  · intro p hp hgt
    have hfloor := gapMissingRows_eq_floor _ p hpos hgt
    constructor
    · rw [gapOf, hfloor]
    · rw [gapFillers, hfloor]
  · norm_num [find_missing_data, sortedTimes, List.insertionSort, List.orderedInsert,
      deltasOf, modeOf, List.count_cons, roundedInterval, round_eq, abs_lt,
      gapStep, gapOf, gapFillers, gapMissingRows, pyTrunc, List.range_succ]
    simp [List.range, List.range.loop]
    norm_num

/-- The non-rounded part of the original C2 claim is false on the code: for
timestamps at 2.08-minute spacing with one 5-minute gap the mode of the
deltas is 2.08 but the code rounds it to 2, and the reconstructed instant is
start + 2 rather than start + 2.08 as the claim's baseline-equals-mode
formula demands. -/
theorem C2_counterexample :
    find_missing_data [0, 52/25, 104/25, 229/25]
      = some (2, [⟨104/25, 229/25, 2, 1⟩], [154/25]) ∧
    modeOf (deltasOf (sortedTimes [0, 52/25, 104/25, 229/25])) = 52/25 ∧
    (2 : ℚ) ≠ 52/25 ∧
    (154/25 : ℚ) ≠ 104/25 + 1 * (52/25) := by
  refine ⟨?_, ?_, by norm_num, by norm_num⟩
  · norm_num [find_missing_data, sortedTimes, List.insertionSort, List.orderedInsert,
      deltasOf, modeOf, List.count_cons, roundedInterval, round_eq, abs_lt,
      gapStep, gapOf, gapFillers, gapMissingRows, pyTrunc, List.range_succ]
  · norm_num [sortedTimes, List.insertionSort, List.orderedInsert, deltasOf,
      modeOf, List.count_cons]


/-- Witness for C2 at the concrete 1-minute sequence with one 5-minute gap. -/
theorem C2_witness :
    (deltasOf (sortedTimes [0, 1, 2, 3, 8, 9, 10]) ≠ [] ∧
      0 < roundedInterval (modeOf (deltasOf (sortedTimes [0, 1, 2, 3, 8, 9, 10])))) ∧
    (∃ ei gaps missing,
      find_missing_data [0, 1, 2, 3, 8, 9, 10] = some (ei, gaps, missing)) := by
  have h2 : deltasOf (sortedTimes [0, 1, 2, 3, 8, 9, 10]) ≠ [] := by
    have : deltasOf (sortedTimes [0, 1, 2, 3, 8, 9, 10]) = [1, 1, 1, 5, 1, 1] := by
      norm_num [sortedTimes, List.insertionSort, List.orderedInsert, deltasOf]
    rw [this]
    exact List.cons_ne_nil _ _
  have hpos : 0 < roundedInterval (modeOf (deltasOf (sortedTimes [0, 1, 2, 3, 8, 9, 10]))) := by
    norm_num [sortedTimes, List.insertionSort, List.orderedInsert, deltasOf,
      modeOf, List.count_cons, roundedInterval, round_eq, abs_lt]
  refine ⟨⟨h2, hpos⟩, ?_⟩
  obtain ⟨ei, gaps, missing, hfind, -⟩ := C2_gap_analyzer_spec [0, 1, 2, 3, 8, 9, 10] h2 hpos
  exact ⟨ei, gaps, missing, hfind⟩

lemma gap_m_cast (ei x y : ℚ) (hpos : 0 < ei) (h : y - x > ei * (11 / 10)) :
    ((gapMissingRows ei (x, y)).toNat : ℚ) = (⌊(y - x) / ei⌋ : ℚ) - 1 := by
  have hL : 1 ≤ ⌊(y - x) / ei⌋ := by
    apply Int.le_floor.mpr
    push_cast
    rw [le_div_iff₀ hpos]
    nlinarith
  have hnn : (0 : ℤ) ≤ ⌊(y - x) / ei⌋ - 1 := by omega
  have htn : ((⌊(y - x) / ei⌋ - 1).toNat : ℤ) = ⌊(y - x) / ei⌋ - 1 :=
    Int.toNat_of_nonneg hnn
  rw [gapMissingRows_eq_floor ei (x, y) hpos (by simpa using h)]
  dsimp only
  calc ((⌊(y - x) / ei⌋ - 1).toNat : ℚ)
      = (((⌊(y - x) / ei⌋ - 1).toNat : ℤ) : ℚ) := by push_cast; ring
    _ = ((⌊(y - x) / ei⌋ - 1 : ℤ) : ℚ) := by rw [htn]
    _ = (⌊(y - x) / ei⌋ : ℚ) - 1 := by push_cast; ring

lemma gap_residual (ei x y : ℚ) (hpos : 0 < ei) (h : y - x > ei * (11 / 10)) :
    ei ≤ y - (x + ((gapMissingRows ei (x, y)).toNat : ℚ) * ei) ∧
    y - (x + ((gapMissingRows ei (x, y)).toNat : ℚ) * ei) < 2 * ei := by
  rw [gap_m_cast ei x y hpos h]
  have hfl : ((⌊(y - x) / ei⌋ : ℚ)) * ei ≤ y - x := by
    rw [← le_div_iff₀ hpos]
    exact Int.floor_le _
  have hfu : y - x < ((⌊(y - x) / ei⌋ : ℚ) + 1) * ei := by
    rw [← div_lt_iff₀ hpos]
    exact Int.lt_floor_add_one _
  constructor
  · nlinarith
  · nlinarith

lemma block_eq_map (ei x y : ℚ) :
    x :: gapFillers ei (x, y)
      = (List.range ((gapMissingRows ei (x, y)).toNat + 1)).map
          (fun (j : ℕ) => x + (j : ℚ) * ei) := by
  rw [gapFillers, List.range_succ_eq_map, List.map_cons, List.map_map]
  congr 1
  · simp
  · exact List.map_congr_left (fun j hj => by
      simp only [Function.comp_apply]
      push_cast
      ring)

lemma block_chain (ei x y : ℚ) :
    List.Chain' (fun a b => b - a = ei) (x :: gapFillers ei (x, y)) := by
  rw [block_eq_map, List.chain'_map]
  exact (List.chain'_range_succ _ _).mpr (fun j hj => by push_cast; ring)

lemma block_getLast (ei x y : ℚ) :
    (x :: gapFillers ei (x, y)).getLast?
      = some (x + ((gapMissingRows ei (x, y)).toNat : ℚ) * ei) := by
  rw [block_eq_map, List.range_succ, List.map_append]
  simp

lemma fillSorted_head (ei x : ℚ) (r : List ℚ) :
    (fillSorted ei (x :: r)).head? = some x := by
  cases r <;> simp [fillSorted]

lemma specMissing_cons (ei x y : ℚ) (r : List ℚ) :
    specMissing ei (x :: y :: r)
      = (if y - x > ei * (11 / 10) then gapFillers ei (x, y) else [])
        ++ specMissing ei (y :: r) := by
  by_cases h : y - x > ei * (11 / 10)
  · simp [specMissing, h]
  · simp [specMissing, h]

lemma fillSorted_perm (ei : ℚ) : ∀ l : List ℚ,
    (fillSorted ei l).Perm (l ++ specMissing ei l) := by
  intro l
  induction l with
  | nil => simp [fillSorted, specMissing]
  | cons x rest ih =>
    cases rest with
    | nil => simp [fillSorted, specMissing]
    | cons y r =>
      rw [specMissing_cons]
      have hshape : fillSorted ei (x :: y :: r)
          = x :: ((if y - x > ei * (11 / 10) then gapFillers ei (x, y) else [])
              ++ fillSorted ei (y :: r)) := by
        simp [fillSorted]
      rw [hshape]
      refine List.Perm.cons x ?_
      have h5 : (((y :: r) ++ specMissing ei (y :: r))
            ++ (if y - x > ei * (11 / 10) then gapFillers ei (x, y) else [])).Perm
          ((y :: r) ++ ((if y - x > ei * (11 / 10) then gapFillers ei (x, y) else [])
            ++ specMissing ei (y :: r))) := by
        rw [List.append_assoc]
        exact List.Perm.append_left _ List.perm_append_comm
      exact ((List.Perm.append_left _ ih).trans List.perm_append_comm).trans h5

lemma fillSorted_chains (ei : ℚ) (hpos : 0 < ei) : ∀ l : List ℚ,
    List.Chain' (· ≤ ·) l →
      List.Chain' (· ≤ ·) (fillSorted ei l) ∧
      List.Chain' (fun a b => b - a < 2 * ei) (fillSorted ei l) := by
  intro l
  induction l with
  | nil => intro _; exact ⟨List.chain'_nil, List.chain'_nil⟩
  | cons x rest ih =>
    cases rest with
    | nil => intro _; constructor <;> simp [fillSorted]
    | cons y r =>
      intro hch
      have hxy : x ≤ y := (List.chain'_cons.mp hch).1
      have hch' : List.Chain' (· ≤ ·) (y :: r) := (List.chain'_cons.mp hch).2
      obtain ⟨ihle, ihP⟩ := ih hch'
      have hhead := fillSorted_head ei y r
      by_cases hc : y - x > ei * (11 / 10)
      · have hshape : fillSorted ei (x :: y :: r)
            = (x :: gapFillers ei (x, y)) ++ fillSorted ei (y :: r) := by
          simp [fillSorted, hc]
        obtain ⟨hres1, hres2⟩ := gap_residual ei x y hpos hc
        have hblockchain := block_chain ei x y
        have hblocklast := block_getLast ei x y
        rw [hshape]
        constructor
        · rw [List.chain'_append]
          refine ⟨hblockchain.imp (fun a b hab => by linarith), ihle, ?_⟩
          intro a ha b hb
          rw [hblocklast] at ha
          rw [hhead] at hb
          simp only [Option.mem_def, Option.some.injEq] at ha hb
          subst ha
          subst hb
          linarith
        · rw [List.chain'_append]
          refine ⟨hblockchain.imp (fun a b hab => by linarith), ihP, ?_⟩
          intro a ha b hb
          rw [hblocklast] at ha
          rw [hhead] at hb
          simp only [Option.mem_def, Option.some.injEq] at ha hb
          subst ha
          subst hb
          linarith
      · have hshape : fillSorted ei (x :: y :: r) = x :: fillSorted ei (y :: r) := by
          simp [fillSorted, hc]
        rw [hshape]
        push_neg at hc
        constructor
        · rw [List.chain'_cons']
          refine ⟨?_, ihle⟩
          intro b hb
          rw [hhead] at hb
          simp only [Option.mem_def, Option.some.injEq] at hb
          subst hb
          exact hxy
        · rw [List.chain'_cons']
          refine ⟨?_, ihP⟩
          intro b hb
          rw [hhead] at hb
          simp only [Option.mem_def, Option.some.injEq] at hb
          subst hb
          nlinarith

/-- C3 (amended): merging the observed timestamps with the reconstructed
missing timestamps and sorting yields a sequence in which every consecutive
delta is strictly below twice the baseline interval (the reconstructed
instants subdivide each flagged gap into steps of exactly one baseline plus a
final residual step in [baseline, 2 baseline), and unflagged deltas are at
most 1.1 baseline); the claimed 1.1-baseline tolerance bound itself does not
hold for the final residual step. -/
theorem C3_merged_within_twice_baseline (ts : List ℚ) (ei : ℚ) (gaps : List Gap)
    (missing : List ℚ) (h : find_missing_data ts = some (ei, gaps, missing))
    (hpos : 0 < ei) :
    List.Chain' (fun a b => b - a < 2 * ei) (sortedTimes (ts ++ missing)) := by
  have h2 : deltasOf (sortedTimes ts) ≠ [] := by
    intro hnil
    simp only [find_missing_data] at h
    rw [if_neg (by simp [hnil])] at h
    exact Option.noConfusion h
  have heq := find_missing_data_eq ts h2
  have h' := h.symm.trans heq
  simp only [Option.some.injEq, Prod.mk.injEq] at h'
  obtain ⟨hei, hgaps, hmiss⟩ := h'
  subst hei
  subst hmiss
  have hsorted : List.Sorted (· ≤ ·) (sortedTimes ts) := List.sorted_insertionSort _ _
  have hchain : List.Chain' (· ≤ ·) (sortedTimes ts) := List.chain'_iff_pairwise.mpr hsorted
  obtain ⟨hfle, hfP⟩ := fillSorted_chains _ hpos (sortedTimes ts) hchain
  have hperm : (sortedTimes (ts ++ specMissing
      (roundedInterval (modeOf (deltasOf (sortedTimes ts)))) (sortedTimes ts))).Perm
        (fillSorted (roundedInterval (modeOf (deltasOf (sortedTimes ts))))
          (sortedTimes ts)) :=
    ((List.perm_insertionSort _ _).trans
      (List.Perm.append_right _ (List.perm_insertionSort _ ts).symm)).trans
      (fillSorted_perm _ (sortedTimes ts)).symm
  have hfsorted : List.Sorted (· ≤ ·) (fillSorted
      (roundedInterval (modeOf (deltasOf (sortedTimes ts)))) (sortedTimes ts)) :=
    List.chain'_iff_pairwise.mp hfle
  have hmsorted : List.Sorted (· ≤ ·) (sortedTimes (ts ++ specMissing
      (roundedInterval (modeOf (deltasOf (sortedTimes ts)))) (sortedTimes ts))) :=
    List.sorted_insertionSort _ _
  rw [List.eq_of_perm_of_sorted hperm hmsorted hfsorted]
  exact hfP

/-- The original C3 claim is false on the code: for the minutes
[0,2,4,6,15] the baseline is 2 and the single gap of 9 minutes is filled
with instants 8, 10, 12, leaving a final merged step of 3 minutes, which
exceeds the claimed tolerance of 1.1 times the baseline (2.2). -/
theorem C3_counterexample :
    find_missing_data [0, 2, 4, 6, 15] = some (2, [⟨6, 15, 6, 3⟩], [8, 10, 12]) ∧
    sortedTimes ([0, 2, 4, 6, 15] ++ [8, 10, 12]) = [0, 2, 4, 6, 8, 10, 12, 15] ∧
    ¬ List.Chain' (fun a b : ℚ => b - a ≤ 2 * (11 / 10)) [0, 2, 4, 6, 8, 10, 12, 15] := by
  refine ⟨?_, ?_, ?_⟩
  · norm_num [find_missing_data, sortedTimes, List.insertionSort, List.orderedInsert,
      deltasOf, modeOf, List.count_cons, roundedInterval, round_eq, abs_lt,
      gapStep, gapOf, gapFillers, gapMissingRows, pyTrunc, List.range_succ]
    simp [List.range, List.range.loop]
    norm_num
  · norm_num [sortedTimes, List.insertionSort, List.orderedInsert]
  · norm_num [List.chain'_cons, List.chain'_singleton]

/-- Witness for C3 at the concrete 1-minute sequence with one 5-minute gap. -/
theorem C3_witness :
    (find_missing_data [0, 1, 2, 3, 8, 9, 10] = some (1, [⟨3, 8, 4, 4⟩], [4, 5, 6, 7]) ∧
      (0 : ℚ) < 1) ∧
    List.Chain' (fun a b : ℚ => b - a < 2 * 1)
      (sortedTimes ([0, 1, 2, 3, 8, 9, 10] ++ [4, 5, 6, 7])) := by
  have hfind : find_missing_data [0, 1, 2, 3, 8, 9, 10]
      = some (1, [⟨3, 8, 4, 4⟩], [4, 5, 6, 7]) := by
    norm_num [find_missing_data, sortedTimes, List.insertionSort, List.orderedInsert,
      deltasOf, modeOf, List.count_cons, roundedInterval, round_eq, abs_lt,
      gapStep, gapOf, gapFillers, gapMissingRows, pyTrunc, List.range_succ]
    simp [List.range, List.range.loop]
    norm_num
  exact ⟨⟨hfind, by norm_num⟩,
    C3_merged_within_twice_baseline [0, 1, 2, 3, 8, 9, 10] 1 [⟨3, 8, 4, 4⟩]
      [4, 5, 6, 7] hfind (by norm_num)⟩

end SanityCheck
